import Mathlib

/-!
Verification of the GooruDeckBuilder generation core.

This file gives a shallow embedding of the orchestration-and-decoding core of
the GooruDeckBuilder repository:

* `src/types.ts` — the data model (`SlideType`, `Slide`, `DeckContent`,
  `GeneratedAsset`);
* `src/services/geminiService.ts` — the content-generation client
  (`generateDeckText` response handling, the narration sanitizer `cleanText`
  inside `generateSlideAudio`);
* `src/App.tsx` — the generation orchestrator `generateContent` (per-item
  failure guards, the eligible-slide filters, the sparse result maps, the
  fatal-error branch);
* `src/components/Deck.tsx` — the audio decoder `pcmToWavBlob` and the
  slide-navigation handlers;
* the quiz card component — `QuizCard` selection/submission state.

JavaScript strings are modelled as Lean `String`/`List Char`, byte buffers as
`List Nat` with values below 256, JS objects keyed by slide position
(`Record<number, string>`) as functions `Nat → Option String`, and promises
that either resolve or reject as an explicit `ClientResult` sum.  JS
truthiness tests on strings (`if (res.url)`, `item.slide.visualPrompt`) are
modelled by explicit non-emptiness checks.
-/

/-! ### JavaScript string helpers -/

/-- Predicate `hasLead s pat`: holds when `pat` is a leading segment of `s`
(character-code lists).  Helper for modelling `String.prototype.includes`. -/
def hasLead : List Char → List Char → Bool
  | _, [] => true
  | [], _ :: _ => false
  | a :: sr, b :: pr => a == b && hasLead sr pr

/-- Model of JavaScript `s.includes(pat)` on character lists: `pat` occurs
contiguously somewhere in `s`. -/
def strIncludes : List Char → List Char → Bool
  | [], pat => hasLead [] pat
  | a :: sr, pat => hasLead (a :: sr) pat || strIncludes sr pat

/-! ### Data model (`src/types.ts`) -/

/-- The `SlideType` enum from `src/types.ts`. -/
inductive SlideType where
  | INTRO
  | DEEP_DIVE
  | VOCABULARY
  | SCENARIO
  | CONCLUSION
deriving DecidableEq, Repr

/-- Structure `VocabularyItem` from `src/types.ts`. -/
structure VocabularyItem where
  term : String
  definition : String
deriving DecidableEq, Repr

/-- Structure `QuizData` from `src/types.ts`.  JS `number` indices are modelled as
`Int`. -/
structure QuizData where
  question : String
  options : List String
  correctIndex : Int
deriving DecidableEq, Repr

/-- Structure `Slide` from `src/types.ts`.  The optional fields (`visualPrompt?`,
`vocabulary?`, `quiz?`) are `Option`s; `audioDurationEstimate` (a JS number
used only as an advisory estimate) is modelled as `Int`. -/
structure Slide where
  type : SlideType
  title : String
  content : String
  audioScript : String
  audioDurationEstimate : Int
  visualPrompt : Option String
  vocabulary : Option (List VocabularyItem)
  quiz : Option QuizData
deriving DecidableEq, Repr

/-- Structure `DeckContent` from `src/types.ts`. -/
structure DeckContent where
  topic : String
  slides : List Slide
deriving DecidableEq, Repr

/-- JS truthiness of an optional string field: `undefined` and the empty
string are falsy, every other string is truthy. -/
def truthyOptStr : Option String → Bool
  | none => false
  | some s => !(s == "")

/-- JS truthiness of a required string field: only the empty string is
falsy. -/
def truthyStr (s : String) : Bool := !(s == "")

/-! ### Narration sanitizer (`generateSlideAudio`, `src/services/geminiService.ts`) -/

/-- Model of one JS `text.replace(/c/g, rep)` call for a single-character
pattern `pat`: every occurrence of `pat` is replaced by `rep`. -/
def replaceAllChar (pat : Char) (rep : List Char) (s : List Char) : List Char :=
  s.flatMap fun c => if c = pat then rep else [c]

/-- Character codes of the markup characters stripped by the final
`replace(/[\$\#\@\*\^\{\}\[\]]/g, '')` in `generateSlideAudio`:
dollar, hash, at, asterisk, caret, both braces, both square brackets. -/
def markupCodes : List Nat := [36, 35, 64, 42, 94, 123, 125, 91, 93]

/-- Whether a character belongs to the stripped markup class. -/
def isMarkup (c : Char) : Bool := markupCodes.contains c.toNat

/-- The final markup-stripping replace: removes every markup character. -/
def stripMarkup (s : List Char) : List Char := s.filter fun c => !(isMarkup c)

/-- The `cleanText` sanitization pipeline of `generateSlideAudio`
(`src/services/geminiService.ts` lines 129–135): five sequential
single-character replaces (Σ, Δ, ≠, ≈, ±) followed by the markup strip. -/
def cleanText (s : List Char) : List Char :=
  stripMarkup
    (replaceAllChar '±' "plus or minus ".data
      (replaceAllChar '≈' "is approximately ".data
        (replaceAllChar '≠' "is not equal to ".data
          (replaceAllChar 'Δ' "change in ".data
            (replaceAllChar 'Σ' "sum of ".data s)))))

/-- Function `cleanText` lifted to Lean `String`, matching the JS function which maps
string to string. -/
def cleanTextStr (s : String) : String := String.mk (cleanText s.data)

/-! #### Sanitizer lemmas -/

theorem mem_replaceAllChar {c pat : Char} {rep s : List Char}
    (h : c ∈ replaceAllChar pat rep s) : c ∈ rep ∨ c ∈ s := by
  rcases List.mem_flatMap.mp h with ⟨a, ha, hc⟩
  by_cases hap : a = pat
  · simp [hap] at hc
    exact Or.inl hc
  · simp [hap] at hc
    exact Or.inr (hc ▸ ha)

theorem replaceAllChar_eq_self {pat : Char} {rep s : List Char}
    (h : ∀ c ∈ s, c ≠ pat) : replaceAllChar pat rep s = s := by
  induction s with
  | nil => rfl
  | cons a t ih =>
    have ha : a ≠ pat := h a (List.mem_cons_self a t)
    have ht : ∀ c ∈ t, c ≠ pat := fun c hc => h c (List.mem_cons_of_mem a hc)
    have ih' := ih ht
    simp only [replaceAllChar, List.flatMap_cons] at ih' ⊢
    simp [ha, ih']

/-- The map `replaceAllChar` eliminates its pattern character whenever the
replacement text does not itself contain it. -/
theorem pat_not_mem_replaceAllChar {pat : Char} {rep s : List Char}
    (hrep : pat ∉ rep) : pat ∉ replaceAllChar pat rep s := by
  intro h
  rcases List.mem_flatMap.mp h with ⟨a, _, hc⟩
  by_cases hap : a = pat
  · simp [hap] at hc
    exact hrep hc
  · simp [hap] at hc
    exact hap (hc ▸ rfl)

theorem stripMarkup_eq_self {s : List Char} (h : ∀ c ∈ s, isMarkup c = false) :
    stripMarkup s = s := by
  apply List.filter_eq_self.mpr
  intro c hc
  simp [h c hc]

/-- Every character of a sanitized string is neither one of the five replaced
symbols nor a markup character: the replacement words are plain ASCII words
and the final strip removes all markup. -/
theorem cleanText_chars {c : Char} {s : List Char} (h : c ∈ cleanText s) :
    c ≠ 'Σ' ∧ c ≠ 'Δ' ∧ c ≠ '≠' ∧ c ≠ '≈' ∧ c ≠ '±' ∧ isMarkup c = false := by
  unfold cleanText stripMarkup at h
  have hmk : isMarkup c = false := by
    have := List.of_mem_filter h
    simpa using this
  have hmem := List.mem_of_mem_filter h
  refine ⟨?_, ?_, ?_, ?_, ?_, hmk⟩
  · rintro rfl
    rcases mem_replaceAllChar hmem with h4 | h4
    · revert h4; decide
    rcases mem_replaceAllChar h4 with h3 | h3
    · revert h3; decide
    rcases mem_replaceAllChar h3 with h2 | h2
    · revert h2; decide
    rcases mem_replaceAllChar h2 with h1 | h1
    · revert h1; decide
    exact pat_not_mem_replaceAllChar (by decide) h1
  · rintro rfl
    rcases mem_replaceAllChar hmem with h4 | h4
    · revert h4; decide
    rcases mem_replaceAllChar h4 with h3 | h3
    · revert h3; decide
    rcases mem_replaceAllChar h3 with h2 | h2
    · revert h2; decide
    exact pat_not_mem_replaceAllChar (by decide) h2
  · rintro rfl
    rcases mem_replaceAllChar hmem with h4 | h4
    · revert h4; decide
    rcases mem_replaceAllChar h4 with h3 | h3
    · revert h3; decide
    exact pat_not_mem_replaceAllChar (by decide) h3
  · rintro rfl
    rcases mem_replaceAllChar hmem with h4 | h4
    · revert h4; decide
    exact pat_not_mem_replaceAllChar (by decide) h4
  · rintro rfl
    exact pat_not_mem_replaceAllChar (by decide) hmem

/-- Idempotence of the sanitizer at the character-list level. -/
theorem cleanText_idempotent (s : List Char) :
    cleanText (cleanText s) = cleanText s := by
  have h1 : replaceAllChar 'Σ' "sum of ".data (cleanText s) = cleanText s :=
    replaceAllChar_eq_self fun c hc => (cleanText_chars hc).1
  rw [cleanText, h1]
  have h2 : replaceAllChar 'Δ' "change in ".data (cleanText s) = cleanText s :=
    replaceAllChar_eq_self fun c hc => (cleanText_chars hc).2.1
  rw [h2]
  have h3 : replaceAllChar '≠' "is not equal to ".data (cleanText s) = cleanText s :=
    replaceAllChar_eq_self fun c hc => (cleanText_chars hc).2.2.1
  rw [h3]
  have h4 : replaceAllChar '≈' "is approximately ".data (cleanText s) = cleanText s :=
    replaceAllChar_eq_self fun c hc => (cleanText_chars hc).2.2.2.1
  rw [h4]
  have h5 : replaceAllChar '±' "plus or minus ".data (cleanText s) = cleanText s :=
    replaceAllChar_eq_self fun c hc => (cleanText_chars hc).2.2.2.2.1
  rw [h5]
  exact stripMarkup_eq_self fun c hc => (cleanText_chars hc).2.2.2.2.2

/-- C5: the narration-text sanitization of `generateSlideAudio` (the
symbol-to-word substitutions for Σ, Δ, ≠, ≈, ± followed by stripping of the
markup characters) is idempotent: applying it twice to any input string
yields the same result as applying it once. -/
theorem sanitize_idempotent (s : String) :
    cleanTextStr (cleanTextStr s) = cleanTextStr s :=
  congrArg String.mk (cleanText_idempotent s.data)

/-! ### Generation orchestrator (`generateContent`, `src/App.tsx`) -/

/-- Outcome of one asset-generation client call as observed by the
orchestrator's per-item guard: the underlying promise either rejects
(`throws`) or resolves with a string or with `undefined` (`returns`). -/
inductive ClientResult where
  | throws
  | returns (r : Option String)
deriving DecidableEq, Repr

/-- Structure `GeneratedAsset` from `src/types.ts`: the deck plus the two sparse
position-keyed maps (`Record<number, string>` modelled as
`Nat → Option String`). -/
structure GeneratedAsset where
  deck : DeckContent
  images : Nat → Option String
  audio : Nat → Option String

/-- The observable result of one `generateContent` run in `src/App.tsx`: the
success path stores the bundle and enters the `DECK` state; the catch path
enters the `ERROR` state with an error message, after re-triggering API-key
selection (`reSelectKey`) for the credentials/billing variant. -/
inductive AppResult where
  | deckReady (g : GeneratedAsset)
  | errorState (reSelectKey : Bool) (message : String)

/-- From `src/App.tsx` lines 45–47: slides that need images — position/slide pairs
whose slide is a `DEEP_DIVE` with a truthy `visualPrompt`. -/
def slidesWithVisuals (deck : DeckContent) : List (Nat × Slide) :=
  deck.slides.enum.filter fun p =>
    p.2.type == SlideType.DEEP_DIVE && truthyOptStr p.2.visualPrompt

/-- The per-item image guard (`src/App.tsx` lines 52–61): an early return
for a falsy `visualPrompt`, otherwise the client call with its exception
converted to an explicit `(index, undefined)` pair. -/
def imageGuard (imgCall : Nat → ClientResult) (i : Nat) (s : Slide) :
    Nat × Option String :=
  if !truthyOptStr s.visualPrompt then (i, none)
  else
    match imgCall i with
    | .throws => (i, none)
    | .returns r => (i, r)

/-- The per-item audio guard (`src/App.tsx` lines 64–73): an early return for
a falsy `audioScript`, otherwise the client call with its exception converted
to an explicit `(index, undefined)` pair. -/
def audioGuard (audioCall : Nat → ClientResult) (i : Nat) (s : Slide) :
    Nat × Option String :=
  if !truthyStr s.audioScript then (i, none)
  else
    match audioCall i with
    | .throws => (i, none)
    | .returns r => (i, r)

/-- One step of the `forEach` loops of `src/App.tsx` lines 82–89: assign
`map[res.index] = res.value` when the value is truthy (defined and
non-empty), else leave the map unchanged. -/
def recordSet (m : Nat → Option String) (e : Nat × Option String) :
    Nat → Option String :=
  match e.2 with
  | some u => if u == "" then m else fun j => if j = e.1 then some u else m j
  | none => m

/-- The generic error message of the catch branch (`src/App.tsx` line 105). -/
def genericErrorMsg : String :=
  "Failed to generate content. Please check your connection and try again."

/-- The credentials/billing remediation message (`src/App.tsx` line 103). -/
def remediationErrorMsg : String :=
  "API configuration error. Please select a valid project with an active billing account."

/-- The backend error string matched by the catch branch
(`src/App.tsx` line 101). -/
def entityNotFoundMsg : String := "Requested entity was not found"

/-- The `generateContent` orchestrator of `src/App.tsx` (lines 40–108),
  modelled over its suspension points:

* `aistudio` — whether `window.aistudio` is available;
* `deckRes` — the result of the awaited `generateDeckText` call (the only
  uncaught await inside the `try`);
* `imgCall`, `audioCall` — the behavior of `generateDeckImage` /
  `generateSlideAudio` at each slide position.

The success path filters the slides needing visuals, runs both guarded
batches, folds the results into the two truthy-value maps and stores the
bundle; the catch path selects between the credentials-remediation error
state (with key re-selection when `window.aistudio` exists) and the generic
error state by substring-matching the error message. -/
def generateContent (aistudio : Bool) (deckRes : Except String DeckContent)
    (imgCall audioCall : Nat → ClientResult) : AppResult :=
  match deckRes with
  | .error msg =>
      if strIncludes msg.data entityNotFoundMsg.data then
        .errorState aistudio remediationErrorMsg
      else
        .errorState false genericErrorMsg
  | .ok deckContent =>
      let imagesResults :=
        (slidesWithVisuals deckContent).map fun p => imageGuard imgCall p.1 p.2
      let audioResults :=
        deckContent.slides.enum.map fun p => audioGuard audioCall p.1 p.2
      let imagesMap := imagesResults.foldl recordSet fun _ => none
      let audioMap := audioResults.foldl recordSet fun _ => none
      .deckReady { deck := deckContent, images := imagesMap, audio := audioMap }

/-- The image map of a run's bundle (empty when the run failed). -/
def bundleImages (r : AppResult) (i : Nat) : Option String :=
  match r with
  | .deckReady g => g.images i
  | .errorState _ _ => none

/-- The audio map of a run's bundle (empty when the run failed). -/
def bundleAudio (r : AppResult) (i : Nat) : Option String :=
  match r with
  | .deckReady g => g.audio i
  | .errorState _ _ => none

/-- The truthy-value view of a guarded result: the value stored by
`recordSet`, i.e. the string when it is defined and non-empty, else
nothing. -/
def truthyVal : Option String → Option String
  | some u => if u == "" then none else some u
  | none => none

/-- Expected image-map entry at position `i` (the specification of the
orchestrator's image bookkeeping): present exactly when slide `i` exists, is
a `DEEP_DIVE` with truthy `visualPrompt`, and the image call resolved with a
truthy string. -/
def imageOutcome (deck : DeckContent) (imgCall : Nat → ClientResult) (i : Nat) :
    Option String :=
  match deck.slides[i]? with
  | some s =>
      if s.type == SlideType.DEEP_DIVE && truthyOptStr s.visualPrompt then
        match imgCall i with
        | .returns (some u) => if u == "" then none else some u
        | _ => none
      else none
  | none => none

/-- Expected audio-map entry at position `i`: present exactly when slide `i`
exists, has a truthy `audioScript`, and the audio call resolved with a truthy
string. -/
def audioOutcome (deck : DeckContent) (audioCall : Nat → ClientResult) (i : Nat) :
    Option String :=
  match deck.slides[i]? with
  | some s =>
      if truthyStr s.audioScript then
        match audioCall i with
        | .returns (some u) => if u == "" then none else some u
        | _ => none
      else none
  | none => none

/-- Positions at which `generateDeckImage` is actually invoked: the slides
selected by the `slidesWithVisuals` filter whose inner guard
(`if (!slide.visualPrompt) return`, line 54) does not early-return. -/
def imageRequestPositions (deck : DeckContent) : List Nat :=
  ((slidesWithVisuals deck).filter fun p => truthyOptStr p.2.visualPrompt).map
    Prod.fst

/-- Positions at which `generateSlideAudio` is actually invoked: the audio
batch covers every slide, and the inner guard
(`if (!slide.audioScript) return`, line 66) skips falsy scripts. -/
def audioRequestPositions (deck : DeckContent) : List Nat :=
  (deck.slides.enum.filter fun p => truthyStr p.2.audioScript).map Prod.fst

/-! #### Characterizing the result maps -/

/-- Recursive reformulation of "enumerate from `k`, keep the slides passing
`keep`, apply the guard `g`" — the shape shared by the image batch (with the
`slidesWithVisuals` filter) and the audio batch (with `keep` trivially
true). -/
def resultsRec (keep : Slide → Bool) (g : Nat → Slide → Nat × Option String) :
    Nat → List Slide → List (Nat × Option String)
  | _, [] => []
  | k, s :: rest =>
      if keep s then g k s :: resultsRec keep g (k + 1) rest
      else resultsRec keep g (k + 1) rest

/-- Expected entry of the folded map at position `j`, recursively over the
slide list starting at position `k`. -/
def outcomeRec (keep : Slide → Bool) (g : Nat → Slide → Nat × Option String) :
    Nat → List Slide → Nat → Option String
  | _, [], _ => none
  | k, s :: rest, j =>
      if j = k then (if keep s then truthyVal (g k s).2 else none)
      else outcomeRec keep g (k + 1) rest j

theorem resultsRec_eq_filterMap (keep : Slide → Bool)
    (g : Nat → Slide → Nat × Option String) :
    ∀ (sl : List Slide) (k : Nat),
      ((List.enumFrom k sl).filter fun p => keep p.2).map (fun p => g p.1 p.2) =
        resultsRec keep g k sl
  | [], _ => rfl
  | s :: rest, k => by
    by_cases h : keep s <;>
      simp [List.enumFrom, List.filter_cons, h, resultsRec,
        resultsRec_eq_filterMap keep g rest (k + 1)]

theorem resultsRec_keys_ge (keep : Slide → Bool)
    (g : Nat → Slide → Nat × Option String) (hg : ∀ k s, (g k s).1 = k) :
    ∀ (sl : List Slide) (k : Nat) (x : Nat × Option String),
      x ∈ resultsRec keep g k sl → k ≤ x.1
  | s :: rest, k, x, hx => by
    unfold resultsRec at hx
    by_cases h : keep s
    · simp only [h, if_true, List.mem_cons] at hx
      rcases hx with rfl | hx
      · exact le_of_eq (hg k s).symm
      · exact Nat.le_of_succ_le (resultsRec_keys_ge keep g hg rest (k + 1) x hx)
    · simp only [h, if_false] at hx
      exact Nat.le_of_succ_le (resultsRec_keys_ge keep g hg rest (k + 1) x hx)

/-- The update `recordSet` leaves every position other than the written key unchanged. -/
theorem recordSet_other {m : Nat → Option String} {e : Nat × Option String}
    {j : Nat} (h : e.1 ≠ j) : recordSet m e j = m j := by
  unfold recordSet
  rcases e with ⟨i, r⟩
  cases r with
  | none => rfl
  | some u =>
    by_cases hu : u == ""
    · simp [hu]
    · simp only [hu, if_false]
      simp at h
      simp [Ne.symm h]

/-- The update `recordSet` stores the truthy view of the result at its own key, when
that key was previously unset. -/
theorem recordSet_at_key {m : Nat → Option String} {e : Nat × Option String}
    {k : Nat} (hm : m k = none) (hk : e.1 = k) :
    recordSet m e k = truthyVal e.2 := by
  unfold recordSet truthyVal
  rcases e with ⟨i, r⟩
  cases r with
  | none => exact hm
  | some u =>
    by_cases hu : u == ""
    · simp [hu, hm]
    · simp only at hk
      simp [hu, hk]

theorem foldl_recordSet_of_ne :
    ∀ (rs : List (Nat × Option String)) (m : Nat → Option String) (j : Nat),
      (∀ x ∈ rs, x.1 ≠ j) → (rs.foldl recordSet m) j = m j
  | [], _, _, _ => rfl
  | e :: rest, m, j, h => by
    have h1 : e.1 ≠ j := h e (List.mem_cons_self e rest)
    have h2 : ∀ x ∈ rest, x.1 ≠ j := fun x hx => h x (List.mem_cons_of_mem e hx)
    calc ((e :: rest).foldl recordSet m) j
        = (rest.foldl recordSet (recordSet m e)) j := rfl
      _ = recordSet m e j := foldl_recordSet_of_ne rest (recordSet m e) j h2
      _ = m j := recordSet_other h1

/-- Folding the guarded results into the map yields exactly the per-position
expected outcome. -/
theorem foldl_recordSet_eq_outcomeRec (keep : Slide → Bool)
    (g : Nat → Slide → Nat × Option String) (hg : ∀ k s, (g k s).1 = k) :
    ∀ (sl : List Slide) (k : Nat) (m : Nat → Option String) (j : Nat),
      k ≤ j → m j = none →
      ((resultsRec keep g k sl).foldl recordSet m) j = outcomeRec keep g k sl j
  | [], k, m, j, _, hm => hm
  | s :: rest, k, m, j, hkj, hm => by
    unfold resultsRec outcomeRec
    by_cases hj : j = k
    · subst hj
      have hkeys : ∀ x ∈ resultsRec keep g (j + 1) rest, ¬x.1 = j := by
        intro x hx
        have := resultsRec_keys_ge keep g hg rest (j + 1) x hx
        omega
      rw [if_pos rfl]
      by_cases h : keep s
      · rw [if_pos h, if_pos h]
        show ((resultsRec keep g (j + 1) rest).foldl recordSet
            (recordSet m (g j s))) j = truthyVal (g j s).2
        rw [foldl_recordSet_of_ne _ _ j hkeys]
        exact recordSet_at_key hm (hg j s)
      · rw [if_neg h, if_neg h]
        exact (foldl_recordSet_of_ne _ _ j hkeys).trans hm
    · have hkj' : k + 1 ≤ j := by omega
      rw [if_neg hj]
      by_cases h : keep s
      · rw [if_pos h]
        have hne : (g k s).1 ≠ j := by
          rw [hg k s]
          exact fun hc => hj hc.symm
        have hm' : recordSet m (g k s) j = none := (recordSet_other hne).trans hm
        show ((resultsRec keep g (k + 1) rest).foldl recordSet
            (recordSet m (g k s))) j = outcomeRec keep g (k + 1) rest j
        exact foldl_recordSet_eq_outcomeRec keep g hg rest (k + 1) _ j hkj' hm'
      · rw [if_neg h]
        exact foldl_recordSet_eq_outcomeRec keep g hg rest (k + 1) m j hkj' hm

/-- Reading `outcomeRec` through list indexing. -/
theorem outcomeRec_eq_getElem (keep : Slide → Bool)
    (g : Nat → Slide → Nat × Option String) :
    ∀ (sl : List Slide) (k j : Nat), k ≤ j →
      outcomeRec keep g k sl j =
        match sl[j - k]? with
        | some s => if keep s then truthyVal (g j s).2 else none
        | none => none
  | [], k, j, _ => by simp [outcomeRec]
  | s :: rest, k, j, hkj => by
    unfold outcomeRec
    by_cases hj : j = k
    · subst hj
      simp
    · have hkj' : k + 1 ≤ j := by omega
      have hjk : j - k = (j - (k + 1)) + 1 := by omega
      rw [if_neg hj, outcomeRec_eq_getElem keep g rest (k + 1) j hkj', hjk,
        List.getElem?_cons_succ]

theorem imageGuard_fst (ic : Nat → ClientResult) (k : Nat) (s : Slide) :
    (imageGuard ic k s).1 = k := by
  unfold imageGuard
  split
  · rfl
  · split <;> rfl

theorem audioGuard_fst (ac : Nat → ClientResult) (k : Nat) (s : Slide) :
    (audioGuard ac k s).1 = k := by
  unfold audioGuard
  split
  · rfl
  · split <;> rfl

theorem resultsRec_eq_map (g : Nat → Slide → Nat × Option String) :
    ∀ (sl : List Slide) (k : Nat),
      (List.enumFrom k sl).map (fun p => g p.1 p.2) =
        resultsRec (fun _ => true) g k sl
  | [], _ => rfl
  | s :: rest, k => by
    simp [List.enumFrom, resultsRec, resultsRec_eq_map g rest (k + 1)]

theorem truthyVal_imageGuard (ic : Nat → ClientResult) (j : Nat) (s : Slide)
    (h : truthyOptStr s.visualPrompt = true) :
    truthyVal (imageGuard ic j s).2 =
      match ic j with
      | .returns (some u) => if u == "" then none else some u
      | _ => none := by
  unfold imageGuard
  rw [h]
  simp only [Bool.not_true]
  rw [if_neg (by simp)]
  cases hic : ic j with
  | throws => rfl
  | returns r => cases r with
    | none => rfl
    | some u => rfl

theorem truthyVal_audioGuard (ac : Nat → ClientResult) (j : Nat) (s : Slide) :
    truthyVal (audioGuard ac j s).2 =
      if truthyStr s.audioScript then
        match ac j with
        | .returns (some u) => if u == "" then none else some u
        | _ => none
      else none := by
  unfold audioGuard
  by_cases h : truthyStr s.audioScript
  · rw [if_pos h, h]
    simp only [Bool.not_true]
    rw [if_neg (by simp)]
    cases hac : ac j with
    | throws => rfl
    | returns r => cases r with
      | none => rfl
      | some u => rfl
  · rw [if_neg h]
    have h' : truthyStr s.audioScript = false := by
      revert h
      cases truthyStr s.audioScript <;> simp
    rw [h']
    rfl

/-- The image map produced by a successful run equals the expected
per-position outcome. -/
theorem bundleImages_eq_imageOutcome (aistudio : Bool) (deck : DeckContent)
    (ic ac : Nat → ClientResult) (j : Nat) :
    bundleImages (generateContent aistudio (Except.ok deck) ic ac) j =
      imageOutcome deck ic j := by
  have hg : ∀ k s, (imageGuard ic k s).1 = k := imageGuard_fst ic
  have h1 :
      ((deck.slides.enum.filter fun p =>
          p.2.type == SlideType.DEEP_DIVE && truthyOptStr p.2.visualPrompt).map
        fun p => imageGuard ic p.1 p.2) =
      resultsRec
        (fun s => s.type == SlideType.DEEP_DIVE && truthyOptStr s.visualPrompt)
        (fun k s => imageGuard ic k s) 0 deck.slides :=
    resultsRec_eq_filterMap
      (fun s => s.type == SlideType.DEEP_DIVE && truthyOptStr s.visualPrompt)
      (fun k s => imageGuard ic k s) deck.slides 0
  have h2 :=
    foldl_recordSet_eq_outcomeRec
      (fun s => s.type == SlideType.DEEP_DIVE && truthyOptStr s.visualPrompt)
      (fun k s => imageGuard ic k s) hg deck.slides 0 (fun _ => none) j
      (Nat.zero_le j) rfl
  have h3 :=
    outcomeRec_eq_getElem
      (fun s => s.type == SlideType.DEEP_DIVE && truthyOptStr s.visualPrompt)
      (fun k s => imageGuard ic k s) deck.slides 0 j (Nat.zero_le j)
  show (((deck.slides.enum.filter fun p =>
      p.2.type == SlideType.DEEP_DIVE && truthyOptStr p.2.visualPrompt).map
        fun p => imageGuard ic p.1 p.2).foldl recordSet fun _ => none) j =
    imageOutcome deck ic j
  rw [h1, h2, h3]
  unfold imageOutcome
  rw [Nat.sub_zero]
  cases hsl : deck.slides[j]? with
  | none => rfl
  | some s =>
    show (if (s.type == SlideType.DEEP_DIVE && truthyOptStr s.visualPrompt) = true
        then truthyVal (imageGuard ic j s).2 else none) =
      (if (s.type == SlideType.DEEP_DIVE && truthyOptStr s.visualPrompt) = true
        then match ic j with
          | ClientResult.returns (some u) => if (u == "") = true then none else some u
          | _ => none
        else none)
    by_cases h : (s.type == SlideType.DEEP_DIVE && truthyOptStr s.visualPrompt) = true
    · rw [if_pos h, if_pos h]
      have h2 : truthyOptStr s.visualPrompt = true := by
        simp only [Bool.and_eq_true] at h
        exact h.2
      exact truthyVal_imageGuard ic j s h2
    · rw [if_neg h, if_neg h]

/-- The audio map produced by a successful run equals the expected
per-position outcome. -/
theorem bundleAudio_eq_audioOutcome (aistudio : Bool) (deck : DeckContent)
    (ic ac : Nat → ClientResult) (j : Nat) :
    bundleAudio (generateContent aistudio (Except.ok deck) ic ac) j =
      audioOutcome deck ac j := by
  have hg : ∀ k s, (audioGuard ac k s).1 = k := audioGuard_fst ac
  have h1 :
      (deck.slides.enum.map fun p => audioGuard ac p.1 p.2) =
      resultsRec (fun _ => true) (fun k s => audioGuard ac k s) 0 deck.slides :=
    resultsRec_eq_map _ deck.slides 0
  have h2 :=
    foldl_recordSet_eq_outcomeRec (fun _ => true)
      (fun k s => audioGuard ac k s) hg deck.slides 0 (fun _ => none) j
      (Nat.zero_le j) rfl
  have h3 :=
    outcomeRec_eq_getElem (fun _ => true) (fun k s => audioGuard ac k s)
      deck.slides 0 j (Nat.zero_le j)
  show ((deck.slides.enum.map fun p => audioGuard ac p.1 p.2).foldl recordSet
      fun _ => none) j = audioOutcome deck ac j
  rw [h1, h2, h3]
  unfold audioOutcome
  rw [Nat.sub_zero]
  cases hsl : deck.slides[j]? with
  | none => rfl
  | some s => exact truthyVal_audioGuard ac j s

/-! ### Claim theorems on the orchestrator -/

/-- A small concrete slide for witnesses. -/
def mkSlide (t : SlideType) (script : String) (vp : Option String) : Slide :=
  { type := t, title := "T", content := "C", audioScript := script,
    audioDurationEstimate := 10, visualPrompt := vp, vocabulary := none,
    quiz := none }

/-- A small concrete deck for witnesses: an intro, a deep dive with a visual
prompt, and a scenario slide with an empty narration script. -/
def sampleDeck : DeckContent :=
  { topic := "supply and demand",
    slides := [mkSlide SlideType.INTRO "hello" none,
               mkSlide SlideType.DEEP_DIVE "script" (some "diagram of supply curve"),
               mkSlide SlideType.SCENARIO "" none] }

/-- C1: failure isolation in the orchestrator.  For every deck and every
behavior of the image/audio clients (including rejected promises and absent
results), the run with a successful deck call completes in the `DECK` state —
no exception escapes the per-item guards — and each position of the image and
audio maps holds exactly the expected entry: the returned truthy string where
the call succeeded, and nothing where the call threw, returned absent, or the
slide was ineligible. -/
theorem orchestrator_failure_isolation (deck : DeckContent)
    (imgCall audioCall : Nat → ClientResult) (aistudio : Bool) :
    (∃ b, generateContent aistudio (Except.ok deck) imgCall audioCall =
      AppResult.deckReady b) ∧
    (∀ i, bundleImages (generateContent aistudio (Except.ok deck) imgCall audioCall) i =
      imageOutcome deck imgCall i) ∧
    (∀ i, bundleAudio (generateContent aistudio (Except.ok deck) imgCall audioCall) i =
      audioOutcome deck audioCall i) :=
  ⟨⟨_, rfl⟩,
    fun i => bundleImages_eq_imageOutcome aistudio deck imgCall audioCall i,
    fun i => bundleAudio_eq_audioOutcome aistudio deck imgCall audioCall i⟩

/-- C4: an image-generation request is issued exactly at the positions whose
slide is a `DEEP_DIVE` carrying a non-empty `visualPrompt`. -/
theorem image_requests_characterization (deck : DeckContent) (i : Nat) :
    i ∈ imageRequestPositions deck ↔
      ∃ s, deck.slides[i]? = some s ∧ s.type = SlideType.DEEP_DIVE ∧
        truthyOptStr s.visualPrompt = true := by
  unfold imageRequestPositions slidesWithVisuals
  simp only [List.mem_map, List.mem_filter, List.mem_enum_iff_getElem?]
  constructor
  · rintro ⟨⟨k, s⟩, ⟨⟨hget, hfilter⟩, hvp⟩, rfl⟩
    simp only [Bool.and_eq_true, beq_iff_eq] at hfilter
    exact ⟨s, hget, hfilter.1, hfilter.2⟩
  · rintro ⟨s, hget, htype, hvp⟩
    exact ⟨(i, s), ⟨⟨hget, by simp [htype, hvp]⟩, hvp⟩, rfl⟩

/-- C8: an audio-generation request is issued exactly at the positions whose
slide carries a non-empty `audioScript`, independent of slide kind; a slide
with an empty script gets no request and hence no audio entry in the
bundle. -/
theorem audio_requests_characterization (deck : DeckContent) :
    (∀ i, i ∈ audioRequestPositions deck ↔
      ∃ s, deck.slides[i]? = some s ∧ truthyStr s.audioScript = true) ∧
    (∀ i s (imgCall audioCall : Nat → ClientResult) (aistudio : Bool),
      deck.slides[i]? = some s → s.audioScript = "" →
      bundleAudio (generateContent aistudio (Except.ok deck) imgCall audioCall) i =
        none) := by
  constructor
  · intro i
    unfold audioRequestPositions
    simp only [List.mem_map, List.mem_filter, List.mem_enum_iff_getElem?]
    constructor
    · rintro ⟨⟨k, s⟩, ⟨hget, hscript⟩, rfl⟩
      exact ⟨s, hget, hscript⟩
    · rintro ⟨s, hget, hscript⟩
      exact ⟨(i, s), ⟨hget, hscript⟩, rfl⟩
  · intro i s imgCall audioCall aistudio hget hscript
    rw [bundleAudio_eq_audioOutcome]
    simp [audioOutcome, hget, hscript, truthyStr]

/-- Witness for C8 at the sample deck: slide 2 has an empty script, so the
bundle of a run whose audio client always succeeds still has no entry
there. -/
theorem audio_requests_characterization_witness :
    bundleAudio
      (generateContent false (Except.ok sampleDeck)
        (fun _ => ClientResult.returns (some "img"))
        (fun _ => ClientResult.returns (some "aud"))) 2 = none :=
  (audio_requests_characterization sampleDeck).2 2
    (mkSlide SlideType.SCENARIO "" none)
    (fun _ => ClientResult.returns (some "img"))
    (fun _ => ClientResult.returns (some "aud")) false rfl rfl

/-- C7: a fatal deck-call failure whose message contains
"Requested entity was not found" terminates in the credentials-remediation
error state (distinct message, key re-selection when the credentials dialog
exists); every other fatal failure terminates in the generic error state. -/
theorem fatal_error_state_selection (msg : String)
    (imgCall audioCall : Nat → ClientResult) (aistudio : Bool) :
    generateContent aistudio (Except.error msg) imgCall audioCall =
      (if strIncludes msg.data entityNotFoundMsg.data then
        AppResult.errorState aistudio remediationErrorMsg
      else AppResult.errorState false genericErrorMsg) ∧
    remediationErrorMsg ≠ genericErrorMsg :=
  ⟨rfl, by decide⟩

/-- Witness for C7: the backend message of the spec scenario selects the
remediation state, and a generic message selects the generic state. -/
theorem fatal_error_state_selection_witness :
    generateContent true (Except.error "Requested entity was not found")
      (fun _ => ClientResult.throws) (fun _ => ClientResult.throws) =
      AppResult.errorState true remediationErrorMsg ∧
    generateContent true (Except.error "network down")
      (fun _ => ClientResult.throws) (fun _ => ClientResult.throws) =
      AppResult.errorState false genericErrorMsg := by
  constructor
  · rw [(fatal_error_state_selection "Requested entity was not found"
      (fun _ => ClientResult.throws) (fun _ => ClientResult.throws) true).1]
    rfl
  · rw [(fatal_error_state_selection "network down"
      (fun _ => ClientResult.throws) (fun _ => ClientResult.throws) true).1]
    rfl

/-! ### Deck player navigation (`src/components/Deck.tsx` lines 248–264) -/

/-- The two navigation buttons of the deck footer. -/
inductive NavEvent where
  | prev
  | next
deriving DecidableEq, Repr

/-- Player position: showing slide `idx`, or exited via the restart path
(`onRestart`, triggered by NEXT on the last slide). -/
inductive NavState where
  | playing (idx : Nat)
  | exited
deriving DecidableEq, Repr

/-- One navigation step for a deck of `n` slides, from the click handlers of
`src/components/Deck.tsx`: PREV decrements only when `slideIndex > 0`
(line 250); NEXT at `slides.length - 1` calls `onRestart`, otherwise
increments (line 258). -/
def navStep (n : Nat) : NavState → NavEvent → NavState
  | .playing i, .prev => if 0 < i then .playing (i - 1) else .playing i
  | .playing i, .next => if i = n - 1 then .exited else .playing (i + 1)
  | .exited, _ => .exited

/-- The in-bounds invariant of the player position. -/
def navInBounds (n : Nat) : NavState → Prop
  | .playing i => i < n
  | .exited => True

theorem navStep_preserves (n : Nat) (hn : 0 < n) (st : NavState) (e : NavEvent)
    (h : navInBounds n st) : navInBounds n (navStep n st e) := by
  cases st with
  | exited => cases e <;> exact trivial
  | playing i =>
    cases e with
    | prev =>
      simp only [navStep]
      by_cases hi : 0 < i
      · rw [if_pos hi]
        exact Nat.lt_of_le_of_lt (Nat.sub_le i 1) h
      · rw [if_neg hi]
        exact h
    | next =>
      simp only [navStep]
      by_cases hi : i = n - 1
      · rw [if_pos hi]
        exact trivial
      · rw [if_neg hi]
        have : i < n := h
        show i + 1 < n
        omega

/-- C9: slide-navigation invariant.  Starting from slide 0 of a non-empty
deck, any sequence of PREV/NEXT clicks keeps the current slide index within
`0 .. n - 1`: PREV does not decrement at 0, and NEXT on the last slide
restarts instead of incrementing. -/
theorem navigation_in_bounds (n : Nat) (hn : 0 < n) (evs : List NavEvent) :
    navInBounds n (evs.foldl (navStep n) (NavState.playing 0)) := by
  have general : ∀ (l : List NavEvent) (st : NavState), navInBounds n st →
      navInBounds n (l.foldl (navStep n) st) := by
    intro l
    induction l with
    | nil => exact fun st h => h
    | cons e rest ih =>
      intro st h
      exact ih (navStep n st e) (navStep_preserves n hn st e h)
  exact general evs (NavState.playing 0) hn

/-- Witness for C9: a concrete click sequence on a 3-slide deck. -/
theorem navigation_in_bounds_witness :
    navInBounds 3
      (List.foldl (navStep 3) (NavState.playing 0)
        [NavEvent.next, NavEvent.prev, NavEvent.prev, NavEvent.next,
         NavEvent.next, NavEvent.next]) :=
  navigation_in_bounds 3 (by decide)
    [NavEvent.next, NavEvent.prev, NavEvent.prev, NavEvent.next,
     NavEvent.next, NavEvent.next]

/-! ### Quiz card (`QuizCard` component) -/

/-- User interactions with a quiz card: clicking an option, clicking
"Check Answer". -/
inductive QuizEvent where
  | select (i : Int)
  | submitAnswer
deriving DecidableEq, Repr

/-- The `useState` pair of the `QuizCard` component. -/
structure QuizState where
  selectedIndex : Option Int
  isSubmitted : Bool
deriving DecidableEq, Repr

/-- Initial quiz-card state: nothing selected, not submitted. -/
def quizInit : QuizState := { selectedIndex := none, isSubmitted := false }

/-- One event step of the quiz card: `handleSelect` ignores clicks once
submitted, `handleSubmit` ignores clicks while nothing is selected. -/
def quizStep (s : QuizState) (e : QuizEvent) : QuizState :=
  match e with
  | .select i => if s.isSubmitted then s else { s with selectedIndex := some i }
  | .submitAnswer =>
      if s.selectedIndex = none then s else { s with isSubmitted := true }

/-- The state after a sequence of interactions, from the initial state. -/
def quizRun (evs : List QuizEvent) : QuizState := evs.foldl quizStep quizInit

/-- The verdict line rendered in the submitted state
(`selectedIndex === data.correctIndex ? ... : ...`). -/
def quizVerdict (d : QuizData) (s : QuizState) : String :=
  if s.selectedIndex = some d.correctIndex then "Correct! Great job."
  else "Not quite. Review the Deep Dive module."

theorem quizStep_preserves (s : QuizState) (e : QuizEvent)
    (h : s.isSubmitted = true → s.selectedIndex ≠ none) :
    (quizStep s e).isSubmitted = true → (quizStep s e).selectedIndex ≠ none := by
  cases e with
  | select i =>
    simp only [quizStep]
    by_cases hs : s.isSubmitted
    · rw [if_pos hs]
      exact h
    · rw [if_neg hs]
      intro _
      simp
  | submitAnswer =>
    simp only [quizStep]
    by_cases hsel : s.selectedIndex = none
    · rw [if_pos hsel]
      exact h
    · rw [if_neg hsel]
      intro _
      exact hsel

theorem quizRun_invariant (evs : List QuizEvent) :
    (quizRun evs).isSubmitted = true → (quizRun evs).selectedIndex ≠ none := by
  have general : ∀ (l : List QuizEvent) (s : QuizState),
      (s.isSubmitted = true → s.selectedIndex ≠ none) →
      ((l.foldl quizStep s).isSubmitted = true →
        (l.foldl quizStep s).selectedIndex ≠ none) := by
    intro l
    induction l with
    | nil => exact fun s h => h
    | cons e rest ih =>
      intro s h
      exact ih (quizStep s e) (quizStep_preserves s e h)
  exact general evs quizInit (by intro h; cases h)

/-- C10: quiz-card state invariant.  After any interaction sequence, if the
card is in the submitted state then an option was selected; every further
event leaves the state unchanged (so the selected index never changes after
submission); and the rendered verdict is the "correct" line exactly when the
selection equals the quiz's `correctIndex`. -/
theorem quiz_state_invariant (d : QuizData) (evs : List QuizEvent) :
    ((quizRun evs).isSubmitted = true → (quizRun evs).selectedIndex ≠ none) ∧
    (∀ e, (quizRun evs).isSubmitted = true → quizStep (quizRun evs) e = quizRun evs) ∧
    ((quizRun evs).isSubmitted = true →
      (quizVerdict d (quizRun evs) = "Correct! Great job." ↔
        (quizRun evs).selectedIndex = some d.correctIndex)) := by
  refine ⟨quizRun_invariant evs, ?_, ?_⟩
  · intro e hsub
    cases e with
    | select i =>
      simp only [quizStep]
      rw [if_pos hsub]
    | submitAnswer =>
      have hsel := quizRun_invariant evs hsub
      simp only [quizStep]
      rw [if_neg hsel]
      cases hq : quizRun evs with
      | mk sel sub =>
        rw [hq] at hsub
        simp only at hsub
        rw [hsub]
  · intro _
    unfold quizVerdict
    by_cases hsel : (quizRun evs).selectedIndex = some d.correctIndex
    · rw [if_pos hsel]
      exact ⟨fun _ => hsel, fun _ => rfl⟩
    · rw [if_neg hsel]
      constructor
      · intro hbad
        exact absurd hbad (by decide)
      · intro hc
        exact absurd hc hsel

/-- Witness for C10: select option 1 then submit; the state is submitted with
a selection, and the verdict matches the correct index 1. -/
theorem quiz_state_invariant_witness :
    (quizRun [QuizEvent.select 1, QuizEvent.submitAnswer]).selectedIndex ≠ none ∧
    quizStep (quizRun [QuizEvent.select 1, QuizEvent.submitAnswer]) QuizEvent.submitAnswer =
      quizRun [QuizEvent.select 1, QuizEvent.submitAnswer] ∧
    (quizVerdict { question := "Q", options := ["a", "b"], correctIndex := 1 }
        (quizRun [QuizEvent.select 1, QuizEvent.submitAnswer]) = "Correct! Great job." ↔
      (quizRun [QuizEvent.select 1, QuizEvent.submitAnswer]).selectedIndex = some 1) :=
  ⟨(quiz_state_invariant { question := "Q", options := ["a", "b"], correctIndex := 1 }
      [QuizEvent.select 1, QuizEvent.submitAnswer]).1 rfl,
   (quiz_state_invariant { question := "Q", options := ["a", "b"], correctIndex := 1 }
      [QuizEvent.select 1, QuizEvent.submitAnswer]).2.1 QuizEvent.submitAnswer rfl,
   (quiz_state_invariant { question := "Q", options := ["a", "b"], correctIndex := 1 }
      [QuizEvent.select 1, QuizEvent.submitAnswer]).2.2 rfl⟩

/-! ### Audio decoder (`pcmToWavBlob`, `src/components/Deck.tsx` lines 12–39)

The browser builtin `atob` is modelled as standard base64 decoding on
character-code lists; `b64encodeCodes` is the matching standard encoder, used
to state the round trip "raw PCM buffer → its base64 encoding → container".
Bytes and character codes are `Nat`s below 256. -/

/-- Standard base64 alphabet: 6-bit value to character code
(A–Z, a–z, 0–9, plus, slash). -/
def sextToChar (n : Nat) : Nat :=
  if n < 26 then 65 + n
  else if n < 52 then 97 + (n - 26)
  else if n < 62 then 48 + (n - 52)
  else if n = 62 then 43
  else 47

/-- Inverse base64 alphabet: character code to 6-bit value. -/
def charToSext (c : Nat) : Nat :=
  if 65 ≤ c ∧ c ≤ 90 then c - 65
  else if 97 ≤ c ∧ c ≤ 122 then c - 97 + 26
  else if 48 ≤ c ∧ c ≤ 57 then c - 48 + 52
  else if c = 43 then 62
  else if c = 47 then 63
  else 0

/-- Standard base64 encoding of a byte list to character codes, with
`=` (code 61) padding. -/
def b64encodeCodes : List Nat → List Nat
  | [] => []
  | [a] => [sextToChar (a / 4), sextToChar (a % 4 * 16), 61, 61]
  | [a, b] =>
      [sextToChar (a / 4), sextToChar (a % 4 * 16 + b / 16),
       sextToChar (b % 16 * 4), 61]
  | a :: b :: c :: rest =>
      sextToChar (a / 4) :: sextToChar (a % 4 * 16 + b / 16) ::
      sextToChar (b % 16 * 4 + c / 64) :: sextToChar (c % 64) ::
      b64encodeCodes rest

/-- Model of the browser builtin `atob` on well-formed base64 input: decode
four character codes to three bytes per group, honoring `=` padding. -/
def atobDecode : List Nat → List Nat
  | c1 :: c2 :: c3 :: c4 :: rest =>
      if c3 = 61 then [charToSext c1 * 4 + charToSext c2 / 16]
      else if c4 = 61 then
        [charToSext c1 * 4 + charToSext c2 / 16,
         charToSext c2 % 16 * 16 + charToSext c3 / 4]
      else
        (charToSext c1 * 4 + charToSext c2 / 16) ::
        (charToSext c2 % 16 * 16 + charToSext c3 / 4) ::
        (charToSext c3 % 4 * 64 + charToSext c4) :: atobDecode rest
  | _ => []

/-- Little-endian bytes stored by `DataView.setUint16`. -/
def u16le (v : Nat) : List Nat := [v % 256, v / 256 % 256]

/-- Little-endian bytes stored by `DataView.setUint32` (the value is taken
modulo 2^32, as `setUint32` does). -/
def u32le (v : Nat) : List Nat :=
  [v % 256, v / 256 % 256, v / 65536 % 256, v / 16777216 % 256]

/-- The 44-byte RIFF/WAVE header written by `pcmToWavBlob`
(`src/components/Deck.tsx` lines 18–30) for a payload of `len` bytes:
"RIFF", chunk size `36 + len`, "WAVE", "fmt ", subchunk size 16, audio
format 1, channels 1, sample rate 24000, byte rate `24000 * 2`, block
align 2, bits per sample 16, "data", data length `len`. -/
def wavHeaderBytes (len : Nat) : List Nat :=
  [82, 73, 70, 70] ++ u32le (36 + len) ++ [87, 65, 86, 69] ++
  [102, 109, 116, 32] ++ u32le 16 ++ u16le 1 ++ u16le 1 ++ u32le 24000 ++
  u32le (24000 * 2) ++ u16le 2 ++ u16le 16 ++ [100, 97, 116, 97] ++ u32le len

/-- Function `pcmToWavBlob` from `src/components/Deck.tsx`: decode the base64 payload
with `atob`, then emit the 44-byte header followed by the raw sample
bytes. -/
def pcmToWavBlob (base64PCM : List Nat) : List Nat :=
  let binaryString := atobDecode base64PCM
  wavHeaderBytes binaryString.length ++ binaryString

/-- A standard reader's little-endian 16-bit read at byte offset `off`. -/
def readU16 (l : List Nat) (off : Nat) : Nat :=
  match l.drop off with
  | b0 :: b1 :: _ => b0 + 256 * b1
  | _ => 0

/-- A standard reader's little-endian 32-bit read at byte offset `off`. -/
def readU32 (l : List Nat) (off : Nat) : Nat :=
  match l.drop off with
  | b0 :: b1 :: b2 :: b3 :: _ => b0 + 256 * b1 + 65536 * b2 + 16777216 * b3
  | _ => 0

/-! #### Base64 round trip -/

theorem charToSext_sextToChar : ∀ n, n < 64 → charToSext (sextToChar n) = n := by
  decide

theorem sextToChar_ne_61 : ∀ n, n < 64 → sextToChar n ≠ 61 := by
  decide

theorem atobDecode_b64encodeCodes :
    ∀ l : List Nat, (∀ b ∈ l, b < 256) → atobDecode (b64encodeCodes l) = l
  | [], _ => rfl
  | [a], h => by
    have ha : a < 256 := h a (by simp)
    simp only [b64encodeCodes, atobDecode]
    rw [if_pos trivial, charToSext_sextToChar (a / 4) (by omega),
      charToSext_sextToChar (a % 4 * 16) (by omega)]
    have e1 : a / 4 * 4 + a % 4 * 16 / 16 = a := by omega
    rw [e1]
  | [a, b], h => by
    have ha : a < 256 := h a (by simp)
    have hb : b < 256 := h b (by simp)
    simp only [b64encodeCodes, atobDecode]
    rw [if_neg (sextToChar_ne_61 (b % 16 * 4) (by omega)), if_pos trivial,
      charToSext_sextToChar (a / 4) (by omega),
      charToSext_sextToChar (a % 4 * 16 + b / 16) (by omega),
      charToSext_sextToChar (b % 16 * 4) (by omega)]
    have e1 : a / 4 * 4 + (a % 4 * 16 + b / 16) / 16 = a := by omega
    have e2 : (a % 4 * 16 + b / 16) % 16 * 16 + b % 16 * 4 / 4 = b := by omega
    rw [e1, e2]
  | a :: b :: c :: rest, h => by
    have ha : a < 256 := h a (by simp)
    have hb : b < 256 := h b (by simp)
    have hc : c < 256 := h c (by simp)
    have hrest : ∀ x ∈ rest, x < 256 := fun x hx => h x (by simp [hx])
    simp only [b64encodeCodes, atobDecode]
    rw [if_neg (sextToChar_ne_61 (b % 16 * 4 + c / 64) (by omega)),
      if_neg (sextToChar_ne_61 (c % 64) (by omega)),
      charToSext_sextToChar (a / 4) (by omega),
      charToSext_sextToChar (a % 4 * 16 + b / 16) (by omega),
      charToSext_sextToChar (b % 16 * 4 + c / 64) (by omega),
      charToSext_sextToChar (c % 64) (by omega)]
    have e1 : a / 4 * 4 + (a % 4 * 16 + b / 16) / 16 = a := by omega
    have e2 : (a % 4 * 16 + b / 16) % 16 * 16 + (b % 16 * 4 + c / 64) / 4 = b := by
      omega
    have e3 : (b % 16 * 4 + c / 64) % 4 * 64 + c % 64 = c := by omega
    rw [e1, e2, e3, atobDecode_b64encodeCodes rest hrest]

set_option maxHeartbeats 1600000 in
/-- C2: audio decoding round trip.  For every raw PCM byte buffer, the
container `pcmToWavBlob` builds from its base64 encoding declares a data
chunk of exactly the buffer's length, sample rate 24000, one channel, 16 bits
per sample, byte rate 24000 × 2 and block align 2, and the bytes after the
44-byte header are exactly the original samples (the declared-length
equality needs the payload below 2^32 bytes, the `setUint32` range — larger
buffers are not constructible in the source environment). -/
theorem pcm_wav_roundtrip (pcm : List Nat) (hbytes : ∀ b ∈ pcm, b < 256)
    (hlen : pcm.length < 4294967296) :
    readU32 (pcmToWavBlob (b64encodeCodes pcm)) 40 = pcm.length ∧
    readU32 (pcmToWavBlob (b64encodeCodes pcm)) 24 = 24000 ∧
    readU16 (pcmToWavBlob (b64encodeCodes pcm)) 22 = 1 ∧
    readU16 (pcmToWavBlob (b64encodeCodes pcm)) 34 = 16 ∧
    readU32 (pcmToWavBlob (b64encodeCodes pcm)) 28 = 24000 * 2 ∧
    readU16 (pcmToWavBlob (b64encodeCodes pcm)) 32 = 2 ∧
    (pcmToWavBlob (b64encodeCodes pcm)).drop 44 = pcm := by
  have hdec : atobDecode (b64encodeCodes pcm) = pcm :=
    atobDecode_b64encodeCodes pcm hbytes
  have hwav : pcmToWavBlob (b64encodeCodes pcm) =
      wavHeaderBytes pcm.length ++ pcm := by
    unfold pcmToWavBlob
    rw [hdec]
  rw [hwav]
  refine ⟨?_, rfl, rfl, rfl, rfl, rfl, rfl⟩
  show pcm.length % 256 + 256 * (pcm.length / 256 % 256) +
      65536 * (pcm.length / 65536 % 256) +
      16777216 * (pcm.length / 16777216 % 256) = pcm.length
  omega

/-- Witness for C2 at the concrete buffer `[1, 2, 255]`. -/
theorem pcm_wav_roundtrip_witness :
    readU32 (pcmToWavBlob (b64encodeCodes [1, 2, 255])) 40 = 3 ∧
    readU32 (pcmToWavBlob (b64encodeCodes [1, 2, 255])) 24 = 24000 ∧
    readU16 (pcmToWavBlob (b64encodeCodes [1, 2, 255])) 22 = 1 ∧
    readU16 (pcmToWavBlob (b64encodeCodes [1, 2, 255])) 34 = 16 ∧
    readU32 (pcmToWavBlob (b64encodeCodes [1, 2, 255])) 28 = 24000 * 2 ∧
    readU16 (pcmToWavBlob (b64encodeCodes [1, 2, 255])) 32 = 2 ∧
    (pcmToWavBlob (b64encodeCodes [1, 2, 255])).drop 44 = [1, 2, 255] :=
  pcm_wav_roundtrip [1, 2, 255] (by decide) (by decide)

/-! ### Deck text call (`generateDeckText`, `src/services/geminiService.ts`)

`generateDeckText` throws when the response has no text (`if (!text) throw`)
or when `JSON.parse` rejects it; otherwise it returns the parsed JSON value
as-is — the `as DeckContent` cast performs no runtime validation.  The JSON
value space and the declared `responseSchema` (lines 35–76) are modelled
explicitly; `parseJson` abstracts `JSON.parse` (`none` = `SyntaxError`). -/

/-- JSON values. -/
inductive Json where
  | null
  | bool (b : Bool)
  | num (n : Int)
  | str (s : String)
  | arr (xs : List Json)
  | obj (fields : List (String × Json))

/-- First-match field lookup in a JSON object. -/
def lookupField : List (String × Json) → String → Option Json
  | [], _ => none
  | (k, v) :: rest, key => if k = key then some v else lookupField rest key

/-- The value is a JSON string. -/
def isStr : Json → Bool
  | .str _ => true
  | _ => false

/-- The value is a JSON number. -/
def isNum : Json → Bool
  | .num _ => true
  | _ => false

/-- A required property: present and satisfying `p`. -/
def reqFieldIs (fields : List (String × Json)) (k : String) (p : Json → Bool) :
    Bool :=
  match lookupField fields k with
  | some v => p v
  | none => false

/-- An optional property: absent, or present and satisfying `p`. -/
def optFieldIs (fields : List (String × Json)) (k : String) (p : Json → Bool) :
    Bool :=
  match lookupField fields k with
  | some v => p v
  | none => true

/-- The five `SlideType` enum strings of the declared response schema. -/
def slideTypeStrings : List String :=
  ["INTRO", "DEEP_DIVE", "VOCABULARY", "SCENARIO", "CONCLUSION"]

/-- Schema: the `type` property is a string drawn from the enum. -/
def isSlideTypeStr : Json → Bool
  | .str s => slideTypeStrings.contains s
  | _ => false

/-- Schema: an array of strings (`options`). -/
def isStrArr : Json → Bool
  | .arr xs => xs.all isStr
  | _ => false

/-- Schema for one vocabulary item: required `term` and `definition`
strings. -/
def vocabItemConforms : Json → Bool
  | .obj f => reqFieldIs f "term" isStr && reqFieldIs f "definition" isStr
  | _ => false

/-- Schema: an array of vocabulary items. -/
def vocabArrConforms : Json → Bool
  | .arr xs => xs.all vocabItemConforms
  | _ => false

/-- Schema for the `quiz` object: required `question`, `options`,
`correctIndex`. -/
def quizConformsJson : Json → Bool
  | .obj f =>
      reqFieldIs f "question" isStr && reqFieldIs f "options" isStrArr &&
      reqFieldIs f "correctIndex" isNum
  | _ => false

/-- Schema for one slide object, mirroring the declared `responseSchema`
item: required `type` (enum), `title`, `content`, `audioScript` (strings)
and `audioDurationEstimate` (number); optional `visualPrompt` (string),
`vocabulary` (array of items), `quiz` (object).  Note the schema places no
constraint on the number of slides. -/
def slideConforms : Json → Bool
  | .obj f =>
      reqFieldIs f "type" isSlideTypeStr && reqFieldIs f "title" isStr &&
      reqFieldIs f "content" isStr && reqFieldIs f "audioScript" isStr &&
      reqFieldIs f "audioDurationEstimate" isNum &&
      optFieldIs f "visualPrompt" isStr &&
      optFieldIs f "vocabulary" vocabArrConforms &&
      optFieldIs f "quiz" quizConformsJson
  | _ => false

/-- Schema: the `slides` property is an array of conforming slides (of any
length). -/
def slidesArrConforms : Json → Bool
  | .arr xs => xs.all slideConforms
  | _ => false

/-- The declared top-level `responseSchema`: required `topic` string and
`slides` array. -/
def schemaConforms : Json → Bool
  | .obj f => reqFieldIs f "topic" isStr && reqFieldIs f "slides" slidesArrConforms
  | _ => false

/-- The `slides` list of a parsed response, as the orchestrator reads it. -/
def getSlidesJson : Json → List Json
  | .obj f =>
      match lookupField f "slides" with
      | some (.arr xs) => xs
      | _ => []
  | _ => []

/-- The `type` string of a parsed slide, as the renderer reads it. -/
def slideKindJson : Json → Option String
  | .obj f =>
      match lookupField f "type" with
      | some (.str s) => some s
      | _ => none
  | _ => none

/-- The `generateDeckText` response handling (`src/services/geminiService.ts`
lines 80–83): throw on absent/empty text, throw on malformed JSON, otherwise
return the parsed value unvalidated. -/
def generateDeckText (parseJson : String → Option Json)
    (respText : Option String) : Except String Json :=
  match respText with
  | none => Except.error "No content generated"
  | some t =>
      if t = "" then Except.error "No content generated"
      else
        match parseJson t with
        | none => Except.error "SyntaxError: Unexpected token in JSON"
        | some j => Except.ok j

/-- C6: `generateDeckText` fails exactly when the service returns no content
(absent or empty text) or malformed JSON; the failure is not caught in the
client, and on it the orchestrator aborts: it lands in the error state —
producing no bundle — and its result does not depend on the image/audio
clients, i.e. no asset call is issued. -/
theorem deck_failure_aborts :
    (∀ (parseJson : String → Option Json) (respText : Option String),
      (∃ e, generateDeckText parseJson respText = Except.error e) ↔
        (respText = none ∨ respText = some "" ∨
          ∃ t, respText = some t ∧ parseJson t = none)) ∧
    (∀ (msg : String) (imgCall audioCall imgCall' audioCall' : Nat → ClientResult)
        (aistudio : Bool),
      (∃ b m, generateContent aistudio (Except.error msg) imgCall audioCall =
        AppResult.errorState b m) ∧
      generateContent aistudio (Except.error msg) imgCall audioCall =
        generateContent aistudio (Except.error msg) imgCall' audioCall') := by
  constructor
  · intro parseJson respText
    constructor
    · rintro ⟨e, he⟩
      cases respText with
      | none => exact Or.inl rfl
      | some t =>
        by_cases ht : t = ""
        · exact Or.inr (Or.inl (by rw [ht]))
        · cases hp : parseJson t with
          | none => exact Or.inr (Or.inr ⟨t, rfl, hp⟩)
          | some j =>
            exfalso
            simp [generateDeckText, ht, hp] at he
    · rintro (rfl | rfl | ⟨t, rfl, hp⟩)
      · exact ⟨"No content generated", rfl⟩
      · exact ⟨"No content generated", rfl⟩
      · by_cases ht : t = ""
        · exact ⟨"No content generated", by simp [generateDeckText, ht]⟩
        · exact ⟨"SyntaxError: Unexpected token in JSON",
            by simp [generateDeckText, ht, hp]⟩
  · intro msg imgCall audioCall imgCall' audioCall' aistudio
    constructor
    · by_cases h : strIncludes msg.data entityNotFoundMsg.data
      · exact ⟨aistudio, remediationErrorMsg, by simp [generateContent, h]⟩
      · exact ⟨false, genericErrorMsg, by simp [generateContent, h]⟩
    · rfl

/-- A schema-conforming slide object for the C3 fixtures. -/
def slideJson1 : Json :=
  Json.obj [("type", Json.str "INTRO"), ("title", Json.str "T"),
            ("content", Json.str "C"), ("audioScript", Json.str "A"),
            ("audioDurationEstimate", Json.num 10)]

/-- A schema-conforming deck response with a single slide. -/
def deckJson1 : Json :=
  Json.obj [("topic", Json.str "t"), ("slides", Json.arr [slideJson1])]

/-- A slide object whose `type` is outside the enum (a response the backend
contract forbids but the client accepts unchecked). -/
def slideJsonBad : Json :=
  Json.obj [("type", Json.str "BANANA"), ("title", Json.str "T"),
            ("content", Json.str "C"), ("audioScript", Json.str "A"),
            ("audioDurationEstimate", Json.num 10)]

/-- A deck response carrying the out-of-enum slide. -/
def deckJsonBad : Json :=
  Json.obj [("topic", Json.str "t"), ("slides", Json.arr [slideJsonBad])]

/-- C3 counterexample: `generateDeckText` performs no structural validation,
so a successful generation need not have 15 slides nor enum kinds.  A
schema-conforming single-slide response parses successfully with slide count
1 ≠ 15, and a response with kind "BANANA" also parses successfully. -/
theorem deck_contract_counterexample :
    generateDeckText (fun _ => some deckJson1) (some "raw") = Except.ok deckJson1 ∧
    schemaConforms deckJson1 = true ∧
    (getSlidesJson deckJson1).length = 1 ∧
    ¬(getSlidesJson deckJson1).length = 15 ∧
    generateDeckText (fun _ => some deckJsonBad) (some "raw") = Except.ok deckJsonBad ∧
    slideKindJson slideJsonBad = some "BANANA" ∧
    ¬"BANANA" ∈ slideTypeStrings := by
  refine ⟨rfl, rfl, rfl, by decide, rfl, rfl, by decide⟩

/-- C3 (amended): a successful deck generation returns whatever JSON the
service produced; when that response conforms to the declared response
schema, every slide's kind is one of the five enumeration values.  The
15-slide count is requested by the prompt but enforced nowhere, so it is not
guaranteed. -/
theorem deck_schema_kinds (parseJson : String → Option Json)
    (respText : Option String) (j : Json)
    (hok : generateDeckText parseJson respText = Except.ok j)
    (hschema : schemaConforms j = true) :
    ∀ sj ∈ getSlidesJson j, ∃ s, slideKindJson sj = some s ∧ s ∈ slideTypeStrings := by
  intro sj hsj
  cases j with
  | null => simp [schemaConforms] at hschema
  | bool b => simp [schemaConforms] at hschema
  | num n => simp [schemaConforms] at hschema
  | str s => simp [schemaConforms] at hschema
  | arr xs => simp [schemaConforms] at hschema
  | obj f =>
    unfold schemaConforms at hschema
    simp only [Bool.and_eq_true] at hschema
    obtain ⟨-, hslides⟩ := hschema
    unfold reqFieldIs at hslides
    simp only [getSlidesJson] at hsj
    cases hl : lookupField f "slides" with
    | none =>
      rw [hl] at hslides
      simp at hslides
    | some v =>
      rw [hl] at hslides hsj
      cases v with
      | arr xs =>
        have hsc : slideConforms sj = true := by
          unfold slidesArrConforms at hslides
          rw [List.all_eq_true] at hslides
          exact hslides sj hsj
        cases sj with
        | obj sf =>
          unfold slideConforms at hsc
          simp only [Bool.and_eq_true] at hsc
          have htype : reqFieldIs sf "type" isSlideTypeStr = true :=
            hsc.1.1.1.1.1.1.1
          unfold reqFieldIs at htype
          cases hlt : lookupField sf "type" with
          | none => rw [hlt] at htype; simp at htype
          | some tv =>
            rw [hlt] at htype
            cases tv with
            | str s =>
              refine ⟨s, ?_, ?_⟩
              · simp only [slideKindJson]
                rw [hlt]
              · have : slideTypeStrings.contains s = true := htype
                simpa using this
            | null => simp [isSlideTypeStr] at htype
            | bool b => simp [isSlideTypeStr] at htype
            | num n => simp [isSlideTypeStr] at htype
            | arr ys => simp [isSlideTypeStr] at htype
            | obj g => simp [isSlideTypeStr] at htype
        | null => simp [slideConforms] at hsc
        | bool b => simp [slideConforms] at hsc
        | num n => simp [slideConforms] at hsc
        | str s => simp [slideConforms] at hsc
        | arr ys => simp [slideConforms] at hsc
      | null => simp [slidesArrConforms] at hslides
      | bool b => simp [slidesArrConforms] at hslides
      | num n => simp [slidesArrConforms] at hslides
      | str s => simp [slidesArrConforms] at hslides
      | obj g => simp [slidesArrConforms] at hslides

/-- Witness for the amended C3 at the conforming single-slide response. -/
theorem deck_schema_kinds_witness :
    ∃ s, slideKindJson slideJson1 = some s ∧ s ∈ slideTypeStrings :=
  deck_schema_kinds (fun _ => some deckJson1) (some "raw") deckJson1 rfl rfl
    slideJson1 (List.mem_singleton.mpr rfl)

/-- Witness for C4 at the sample deck: position 1 is the deep-dive slide with
a non-empty visual prompt. -/
theorem image_requests_characterization_witness :
    1 ∈ imageRequestPositions sampleDeck ↔
      ∃ s, sampleDeck.slides[1]? = some s ∧ s.type = SlideType.DEEP_DIVE ∧
        truthyOptStr s.visualPrompt = true :=
  image_requests_characterization sampleDeck 1

/-- Witness for C6: an absent response text makes the deck call fail. -/
theorem deck_failure_aborts_witness :
    ∃ e, generateDeckText (fun _ => none) none = Except.error e :=
  (deck_failure_aborts.1 (fun _ => none) none).mpr (Or.inl rfl)
